import Mathlib

set_option maxHeartbeats 1000000

/-!
Shallow embedding of the CSC111 adventure game engine, translated from
src/adventure.py, src/ui.py and src/simulation.py. The modules
event_logger.py (Event, EventList) and game_entities.py (Item, Location)
are not part of the source tree; those pieces are modelled from the
specification, as marked on each definition. Python ints are embedded as
Int, dicts as association lists, sets as duplicate-free lists, and a
Python exception (AttributeError, KeyError) as a none result.
-/

/-- Modelled from the spec: event_logger.py is missing from the source
tree. An Event records a location identifier and its description text at
the moment it became current, plus the command chosen leading away from it
(absent for the tail and for the very first event before a command). -/
structure Event where
  id_num : Int
  description : String
  next_command : Option String
deriving DecidableEq

/-- Modelled from the spec: game_entities.py is missing from the source
tree. An Item carries a unique name, description, hint, completion
message, start and target location identifiers, and a point value, in the
field order the loader in adventure.py passes to the constructor. -/
structure Item where
  name : String
  description : String
  hint : String
  completion_text : String
  start_position : Int
  target_position : Int
  target_points : Int
deriving DecidableEq

/-- Modelled from the spec: game_entities.py is missing from the source
tree. A Location carries an identifier, a display name, brief and long
descriptions, a map from command string to destination location id, the
mutable list of item names present, and a visited flag (false at load
time). The optional restriction and reward tables are omitted because no
operation embedded here reads them. -/
structure Location where
  id_num : Int
  name : String
  brief_description : String
  long_description : String
  available_commands : List (String × Int)
  items : List String
  visited : Bool
deriving DecidableEq

/-- PlayerState from adventure.py: inventory, score, turn counter and the
returned-set (a Python set of names, modelled as a duplicate-free list). -/
structure PlayerState where
  inventory : List Item
  score : Int
  turn : Int
  returned : List String
deriving DecidableEq

/-- AdventureGame instance state from adventure.py: the location table (a
dict keyed by location id), the item catalog, the set of valid item names,
the player state, the current location id and the ongoing flag. -/
structure AdventureGame where
  locations : List (Int × Location)
  items : List Item
  valid_items : List String
  state : PlayerState
  current_location_id : Int
  ongoing : Bool
deriving DecidableEq

/-- DEFAULT_MIN_SCORE from adventure.py. -/
def DEFAULT_MIN_SCORE : Int := 60

/-- DEFAULT_MAX_TURNS from adventure.py. -/
def DEFAULT_MAX_TURNS : Int := 67

/-- REQUIRED_ITEMS from adventure.py (a set of three item names). -/
def REQUIRED_ITEMS : List String := ["lucky mug", "usb drive", "laptop charger"]

/-- AdventureGame.__getattr__ from adventure.py: backwards-compatible
lookup for legacy constant attribute names, invoked by Python only for
names with no regular definition on the instance or class. MIN_SCORE and
MAX_TURNS resolve to the default constants; every other name raises
AttributeError, modelled as none. -/
def getattr_fallback (attr : String) : Option Int :=
  if attr = "MIN_SCORE" then some DEFAULT_MIN_SCORE
  else if attr = "MAX_TURNS" then some DEFAULT_MAX_TURNS
  else none

/-- Names defined on the AdventureGame class in adventure.py (annotated
instance attributes, properties and methods), for which Python never calls
__getattr__. Transcribed from the class body. -/
def adventure_game_defined_names : List String :=
  ["_locations", "_items", "_valid_items", "_state", "current_location_id",
   "ongoing", "_load_game_data", "location_dict", "inventory", "score",
   "turn", "returned", "get_location", "get_item", "pick_up", "drop",
   "inspect", "check_quest", "submit_early", "reset"]

/-- Python set.add on the returned-set: a no-op when the name is already a
member. -/
def addName (n : String) (r : List String) : List String :=
  if n ∈ r then r else r ++ [n]

/-- In-place mutation of the Location object stored in the dict under key
k, applied through the table (a dict holds at most one entry per key). -/
def updateLoc (w : List (Int × Location)) (k : Int) (f : Location → Location) :
    List (Int × Location) :=
  w.map fun p => if p.1 = k then (p.1, f p.2) else p

/-- AdventureGame.get_location with no argument from adventure.py: dict
lookup of the current location id; none models the KeyError raised when
the id is absent from the table. -/
def AdventureGame.get_location? (g : AdventureGame) : Option Location :=
  g.locations.lookup g.current_location_id

/-- AdventureGame.get_item from adventure.py: the first catalog item whose
name matches, or none. -/
def AdventureGame.get_item (g : AdventureGame) (item_name : String) : Option Item :=
  g.items.find? fun it => it.name == item_name

/-- AdventureGame construction from adventure.py over already-loaded
tables (the JSON loader is an external collaborator; _load_game_data also
collects every catalog name into the valid-name set). -/
def mkGame (locations : List (Int × Location)) (items : List Item)
    (initial_location_id : Int) : AdventureGame :=
  { locations := locations
    items := items
    valid_items := items.map Item.name
    state := { inventory := [], score := 0, turn := 0, returned := [] }
    current_location_id := initial_location_id
    ongoing := true }

/-- AdventureGame.pick_up from adventure.py: fails (false) on an unknown
name or when the name is not present at the current location; on success
appends the item to the inventory and removes the first occurrence of the
name from the current location item list. none models the KeyError when
the current location id is absent. -/
def AdventureGame.pick_up (g : AdventureGame) (item_name : String) :
    Option (Bool × AdventureGame) :=
  if item_name ∈ g.valid_items then
    match g.get_item item_name with
    | none => some (false, g)
    | some curr_item =>
      match g.get_location? with
      | none => none
      | some curr_location =>
        if item_name ∈ curr_location.items then
          some (true,
            { g with
              state := { g.state with inventory := g.state.inventory ++ [curr_item] }
              locations := updateLoc g.locations g.current_location_id
                fun l => { l with items := l.items.erase item_name } })
        else some (false, g)
  else some (false, g)

/-- AdventureGame.drop from adventure.py: fails (false) on an unknown name
or when the item is not in the inventory; on success removes the item from
the inventory and appends its name to the current location item list. -/
def AdventureGame.drop (g : AdventureGame) (item_name : String) :
    Option (Bool × AdventureGame) :=
  if item_name ∈ g.valid_items then
    match g.get_item item_name with
    | none => some (false, g)
    | some curr_item =>
      if curr_item ∈ g.state.inventory then
        match g.get_location? with
        | none => none
        | some _ =>
          some (true,
            { g with
              state := { g.state with inventory := g.state.inventory.erase curr_item }
              locations := updateLoc g.locations g.current_location_id
                fun l => { l with items := l.items ++ [item_name] } })
      else some (false, g)
  else some (false, g)

/-- AdventureGame.inspect from adventure.py: read-only; prints a hint when
the item is recognized and in the inventory, after looking up the target
location name (a KeyError, modelled as none, when the target id is absent
from the table). -/
def AdventureGame.inspect (g : AdventureGame) (item_name : String) :
    Option AdventureGame :=
  if item_name ∈ g.valid_items then
    match g.get_item item_name with
    | none => some g
    | some curr_item =>
      if curr_item ∈ g.state.inventory then
        match g.locations.lookup curr_item.target_position with
        | none => none
        | some _ => some g
      else some g
  else some g

/-- AdventureGame.check_quest from adventure.py. Python evaluates
get_location() before the item-none test, so a missing current location id
always raises (none). Credit requires the target position to equal the
current location id and the name to be present in the location item list
at the moment of the check; on credit the name joins the returned-set, the
score grows by the item point value, and the first occurrence of the name
is removed from the location item list. -/
def AdventureGame.check_quest (g : AdventureGame) (item_name : String) :
    Option (Bool × AdventureGame) :=
  match g.get_location? with
  | none => none
  | some curr_location =>
    match g.get_item item_name with
    | none => some (false, g)
    | some curr_item =>
      if curr_item.target_position = curr_location.id_num ∧ item_name ∈ curr_location.items then
        some (true,
          { g with
            state := { g.state with
              returned := addName item_name g.state.returned
              score := g.state.score + curr_item.target_points }
            locations := updateLoc g.locations g.current_location_id
              fun l => { l with items := l.items.erase item_name } })
      else some (false, g)

/-- AdventureGame.submit_early from adventure.py: end the session. -/
def AdventureGame.submit_early (g : AdventureGame) : AdventureGame :=
  { g with ongoing := false }

/-- _did_player_win from adventure.py: score at least MIN_SCORE (served by
__getattr__ as 60) and REQUIRED_ITEMS a subset of the returned-set. -/
def did_player_win (g : AdventureGame) : Bool :=
  decide (DEFAULT_MIN_SCORE ≤ g.state.score) &&
    REQUIRED_ITEMS.all fun n => g.state.returned.contains n

/-- Modelled from the spec: EventList.add_event sets the outgoing command
of the previous tail (event_logger.py is missing from the source tree). -/
def set_last_cmd : List Event → Option String → List Event
  | [], _ => []
  | [e], c => [{ e with next_command := c }]
  | e :: e2 :: es, c => e :: set_last_cmd (e2 :: es) c

/-- Modelled from the spec: EventList.add_event. Appending to an empty log
installs the first event as head and tail; otherwise the previous tail
gets the preceding command as its outgoing command and the new event
becomes the tail. The linked chain is flattened to a list in order. -/
def add_event (log : List Event) (e : Event) (cmd : Option String) : List Event :=
  match log with
  | [] => [e]
  | _ :: _ => set_last_cmd log cmd ++ [e]

/-- Modelled from the spec: EventList.get_id_log, the ordered sequence of
location ids over all recorded events, first to last, repeats included. -/
def get_id_log (log : List Event) : List Int := log.map Event.id_num

/-- Event value as both the console loop and the simulation build it:
location id plus brief description, with no outgoing command yet. -/
def mk_event (loc : Location) : Event :=
  { id_num := loc.id_num, description := loc.brief_description, next_command := none }

/-- _show_location from adventure.py marks the displayed location visited
(the Location object aliased by the dict entry). -/
def mark_visited (loc : Location) : Location := { loc with visited := true }

/-- The world-table side of _show_location: the location under the current
id gets its visited flag set. -/
def set_visited (g : AdventureGame) : AdventureGame :=
  { g with locations := updateLoc g.locations g.current_location_id mark_visited }

/-- Python str.lower over the ASCII command strings, character by
character (the core String.toLower is not kernel-reducible). -/
def pyLower (s : String) : String := String.mk (s.toList.map Char.toLower)

/-- Python str.strip on the space-separated command strings fed to the
engine (the inputs contain no other whitespace kind). -/
def pyStrip (s : String) : String :=
  String.mk
    (((s.toList.dropWhile fun ch => ch == ' ').reverse.dropWhile fun ch => ch == ' ').reverse)

/-- Python str.split(maxsplit=1) on the already stripped, space-separated
command strings the prompt produces: the first space-run-separated token
and the remainder with the separating run removed; none when there is no
second part. -/
def pySplitMax1 (s : String) : Option (String × String) :=
  let cs := s.toList
  let tok := cs.takeWhile fun ch => ch != ' '
  let rest := (cs.dropWhile fun ch => ch != ' ').dropWhile fun ch => ch == ' '
  if tok = [] ∨ rest = [] then none
  else some (String.mk tok, String.mk rest)

/-- _parse_item_command from adventure.py: split once, strip the item
name, and require a take, drop or inspect verb with a non-empty name. -/
def parse_item_command (choice : String) : Option (String × String) :=
  match pySplitMax1 choice with
  | none => none
  | some (verb, rest) =>
    let item_name := pyStrip rest
    if (verb = "take" ∨ verb = "drop" ∨ verb = "inspect") ∧ ¬item_name = "" then
      some (verb, item_name)
    else none

/-- _handle_item_command from adventure.py: a successful drop immediately
runs check_quest; take uses pick_up; inspect is read-only; an unparsable
command only reports failure. -/
def handle_item_command (g : AdventureGame) (choice : String) : Option AdventureGame :=
  match parse_item_command choice with
  | none => some g
  | some (verb, item_name) =>
    if verb = "take" then (g.pick_up item_name).map Prod.snd
    else if verb = "drop" then
      match g.drop item_name with
      | none => none
      | some (true, g1) => (g1.check_quest item_name).map Prod.snd
      | some (false, g1) => some g1
    else g.inspect item_name

/-- _handle_non_movement_command from adventure.py: log, look, inventory
and score are read-only; quit and submit early end the session; everything
else goes through the item-command handler. -/
def handle_non_movement (g : AdventureGame) (choice : String) : Option AdventureGame :=
  if choice = "log" then some g
  else if choice = "look" then some g
  else if choice = "inventory" then some g
  else if choice = "score" then some g
  else if choice = "quit" then some { g with ongoing := false }
  else if choice = "submit early" then some g.submit_early
  else handle_item_command g choice

/-- _apply_movement from adventure.py: set the current location id to the
mapped destination, advance the turn counter by one, and end the session
once the counter reaches MAX_TURNS (the legacy constant 67 served by
__getattr__). -/
def apply_movement (g : AdventureGame) (dest : Int) : AdventureGame :=
  { g with
    current_location_id := dest
    state := { g.state with turn := g.state.turn + 1 }
    ongoing := if DEFAULT_MAX_TURNS ≤ g.state.turn + 1 then false else g.ongoing }

/-- Session outcome of the console loop: pending means the input list was
exhausted while the session was still ongoing (the prompt would block);
aborted means the session ended through quit, with no win or lose
evaluation. -/
inductive EndKind where
  | pending
  | aborted
  | wonGame
  | lostGame
deriving DecidableEq

/-- Win or lose evaluation run when the while loop of _run_single_game
exits other than through quit. -/
def eval_end (g : AdventureGame) : EndKind :=
  if did_player_win g then EndKind.wonGame else EndKind.lostGame

/-- Flattened console loop of adventure.py (_run_single_game together
with _resolve_turn), consuming the successive accepted prompt inputs
(already lowercased and stripped by _prompt_choice). A movement command
applies _apply_movement and, while the session is still ongoing, the next
outer-loop iteration appends the event for the new location paired with
the command that led to it and marks the location visited; a session ended
by the movement is evaluated with no further append. Non-movement commands
are dispatched without touching the log; when one of them ends the session
the result is aborted exactly when that command was quit. loc is the
location fetched at the loop head; its command table is immutable, so the
held reference stays valid across item mutations. -/
def resolve_commands (g : AdventureGame) (log : List Event) (loc : Location) :
    List String → Option (EndKind × AdventureGame × List Event)
  | [] => some (EndKind.pending, g, log)
  | c :: cs =>
    match loc.available_commands.lookup c with
    | some dest =>
      let g1 := apply_movement g dest
      if g1.ongoing = true then
        match g1.get_location? with
        | none => none
        | some loc2 =>
          resolve_commands (set_visited g1) (add_event log (mk_event loc2) (some c))
            (mark_visited loc2) cs
      else some (eval_end g1, g1, log)
    | none =>
      match handle_non_movement g c with
      | none => none
      | some g1 =>
        if g1.ongoing = true then resolve_commands g1 log loc cs
        else if c = "quit" then some (EndKind.aborted, g1, log)
        else some (eval_end g1, g1, log)

/-- _run_single_game from adventure.py over an already-constructed game:
the first loop iteration appends the initial location event with no
preceding command and marks it visited, then commands are resolved until
the session ends; a session that is not ongoing is evaluated at once. -/
def run_single_game (g : AdventureGame) (cmds : List String) :
    Option (EndKind × AdventureGame × List Event) :=
  if g.ongoing = true then
    match g.get_location? with
    | none => none
    | some loc =>
      resolve_commands (set_visited g) (add_event [] (mk_event loc) none)
        (mark_visited loc) cmds
  else some (eval_end g, g, [])

/-- GameUI.do_move from ui.py, returning the event log alongside the game
because the log mutation survives the AttributeError: after validating the
command it sets the current location id, fetches the new location, appends
an event built from the OLD location paired with the command, increments
the turn counter, and then reads self.game.max_turns, a name
AdventureGame.__getattr__ raises AttributeError for (see
getattr_fallback), so the method never completes (none). -/
def ui_do_move (g : AdventureGame) (log : List Event) (command_key : String) :
    List Event × Option AdventureGame :=
  match g.get_location? with
  | none => (log, none)
  | some loc =>
    match loc.available_commands.lookup command_key with
    | none => (log, some g)
    | some dest =>
      let g1 := { g with current_location_id := dest }
      match g1.get_location? with
      | none => (log, none)
      | some _ =>
        (add_event log (mk_event loc) (some command_key), none)

/-- _process_non_movement_command from simulation.py: split once at the
first space run; take runs pick_up; a successful drop runs check_quest and
then calls self._game.apply_location_rewards, a name
AdventureGame.__getattr__ raises AttributeError for (none); other verbs do
nothing. -/
def process_non_movement (g : AdventureGame) (command : String) : Option AdventureGame :=
  match pySplitMax1 command with
  | none => some g
  | some (verb, item_name) =>
    if verb = "take" then (g.pick_up item_name).map Prod.snd
    else if verb = "drop" then
      match g.drop item_name with
      | none => none
      | some (true, g1) =>
        match g1.check_quest item_name with
        | none => none
        | some _ => none
      | some (false, g1) => some g1
    else some g

/-- AdventureGameSimulation.generate_events from simulation.py. Each
command is stripped and lowercased; a command present in the current
location command table makes the code call self._game.can_enter_location,
a name AdventureGame.__getattr__ raises AttributeError for (none); other
commands go through _process_non_movement_command, after which an event
for the location fetched from the game is appended with no preceding
command. At the end the game current location id is rewritten from the
tracked location. The brief description is read through the Location
description table, modelled by the brief_description field. -/
def generate_events (g : AdventureGame) (events : List Event)
    (curr_location : Location) : List String → Option (AdventureGame × List Event)
  | [] => some ({ g with current_location_id := curr_location.id_num }, events)
  | command :: rest =>
    let normalized := pyLower (pyStrip command)
    match curr_location.available_commands.lookup normalized with
    | some _ => none
    | none =>
      match process_non_movement g normalized with
      | none => none
      | some g1 =>
        match g1.get_location? with
        | none => none
        | some next_location =>
          generate_events g1 (add_event events (mk_event next_location) none)
            next_location rest

/-- AdventureGameSimulation.__init__ from simulation.py over
already-loaded tables: build the game, append the initial location event,
then generate the remaining events from the command list. -/
def simulation_init (locations : List (Int × Location)) (items : List Item)
    (initial_location_id : Int) (commands : List String) :
    Option (AdventureGame × List Event) :=
  let g := mkGame locations items initial_location_id
  match g.get_location? with
  | none => none
  | some initial_location =>
    generate_events g (add_event [] (mk_event initial_location) none)
      initial_location commands

/-- Movement-only restriction of the console loop: each command must be a
movement available at the current location, taken while the session is
still ongoing, and is applied through _apply_movement. -/
def move_seq (g : AdventureGame) : List String → Option AdventureGame
  | [] => some g
  | c :: cs =>
    if g.ongoing = true then
      match g.get_location? with
      | none => none
      | some loc =>
        match loc.available_commands.lookup c with
        | none => none
        | some dest => move_seq (apply_movement g dest) cs
    else none

/-! Concrete sample data used by witnesses and counterexamples. -/

/-- Sample location 1: the command go east leads to location 2. -/
def locW1 : Location :=
  { id_num := 1, name := "L1", brief_description := "b1", long_description := "B1",
    available_commands := [("go east", 2)], items := [], visited := false }

/-- Sample location 2: the command go west leads back to location 1. -/
def locW2 : Location :=
  { id_num := 2, name := "L2", brief_description := "b2", long_description := "B2",
    available_commands := [("go west", 1)], items := [], visited := false }

/-- Sample two-location world. -/
def worldW : List (Int × Location) := [(1, locW1), (2, locW2)]

/-- Sample fresh game over the two-location world, starting at 1. -/
def gW : AdventureGame := mkGame worldW [] 1

/-! Basic lemmas about the embedded operations. -/

/-- Looking up the mutated key returns the mutated location. -/
theorem lookup_updateLoc (w : List (Int × Location)) (k : Int) (f : Location → Location) :
    (updateLoc w k f).lookup k = (w.lookup k).map f := by
  induction w with
  | nil => rfl
  | cons p ps ih =>
    obtain ⟨a, l⟩ := p
    simp only [updateLoc, List.map_cons] at ih ⊢
    by_cases h : a = k
    · subst h
      rw [if_pos rfl]
      simp [List.lookup]
    · rw [if_neg (by simpa using h)]
      simp only [List.lookup, beq_false_of_ne (Ne.symm h)]
      exact ih

/-- The win test of _did_player_win, spelled out. -/
theorem did_player_win_iff (g : AdventureGame) :
    did_player_win g = true ↔
      DEFAULT_MIN_SCORE ≤ g.state.score ∧ ∀ n ∈ REQUIRED_ITEMS, n ∈ g.state.returned := by
  simp [did_player_win, List.all_eq_true, List.elem_iff]

/-- Claim C2: constructing the simulation over a world where location 1
maps go east to location 2, starting at 1 with commands [go east], does
not succeed: generate_events reaches the movement branch and the call to
self._game.can_enter_location raises AttributeError through
AdventureGame.__getattr__, so no id log [1, 2] is produced. -/
theorem claim_c2_simulation_crash :
    simulation_init worldW [] 1 ["go east"] = none := by decide

/-- Claim C6: pick_up with an unknown item name, or a known name absent
from the current location item list, returns failure and leaves the whole
game state (inventory, every location item list, score, turn counter and
the ongoing flag) unchanged. -/
theorem claim_c6_pick_up_failure : ∀ (g : AdventureGame) (n : String) (loc : Location),
    g.get_location? = some loc →
    (n ∉ g.valid_items ∨ n ∉ loc.items) →
    g.pick_up n = some (false, g) := by
  intro g n loc hloc h
  unfold AdventureGame.pick_up
  by_cases hv : n ∈ g.valid_items
  · rw [if_pos hv]
    have hn : n ∉ loc.items := h.resolve_left fun hc => hc hv
    cases hit : g.get_item n with
    | none => rfl
    | some it =>
      rw [hloc]
      simp [hn]
  · rw [if_neg hv]

theorem claim_c6_witness :
    gW.get_location? = some locW1 ∧ ("ghost" ∉ gW.valid_items ∨ "ghost" ∉ locW1.items) ∧
    gW.pick_up "ghost" = some (false, gW) :=
  ⟨by decide, Or.inl (by decide),
    claim_c6_pick_up_failure gW "ghost" locW1 (by decide) (Or.inl (by decide))⟩

/-- Claim C9: the simulation is a pure function of the loaded tables, the
initial location id and the command list: two constructions over the same
inputs yield the same id log. -/
theorem claim_c9_determinism : ∀ (locations : List (Int × Location)) (items : List Item)
    (initial_location_id : Int) (commands : List String)
    (s1 s2 : AdventureGame × List Event),
    simulation_init locations items initial_location_id commands = some s1 →
    simulation_init locations items initial_location_id commands = some s2 →
    get_id_log s1.2 = get_id_log s2.2 := by
  intro w its i cmds s1 s2 h1 h2
  rw [h1] at h2
  cases h2
  rfl

theorem claim_c9_witness :
    simulation_init worldW [] 1 ["inventory"]
      = some (mkGame worldW [] 1, [⟨1, "b1", none⟩, ⟨1, "b1", none⟩]) ∧
    get_id_log [⟨1, "b1", none⟩, ⟨1, "b1", none⟩]
      = get_id_log [⟨1, "b1", none⟩, ⟨1, "b1", none⟩] :=
  ⟨by decide,
    claim_c9_determinism worldW [] 1 ["inventory"]
      (mkGame worldW [] 1, [⟨1, "b1", none⟩, ⟨1, "b1", none⟩])
      (mkGame worldW [] 1, [⟨1, "b1", none⟩, ⟨1, "b1", none⟩]) (by decide) (by decide)⟩

/-- Claim C10: the __getattr__ fallback serves MIN_SCORE as 60 and
MAX_TURNS as 67; the names max_turns, min_score, can_enter_location and
apply_location_rewards are not defined on the class (so Python reaches the
fallback for them) and the fallback raises AttributeError for them, as it
does for every name other than MIN_SCORE and MAX_TURNS. -/
theorem claim_c10_getattr :
    getattr_fallback "MIN_SCORE" = some 60 ∧
    getattr_fallback "MAX_TURNS" = some 67 ∧
    "max_turns" ∉ adventure_game_defined_names ∧
    "min_score" ∉ adventure_game_defined_names ∧
    "can_enter_location" ∉ adventure_game_defined_names ∧
    "apply_location_rewards" ∉ adventure_game_defined_names ∧
    ∀ attr, ¬attr = "MIN_SCORE" → ¬attr = "MAX_TURNS" → getattr_fallback attr = none := by
  refine ⟨by decide, by decide, by decide, by decide, by decide, by decide, ?_⟩
  intro attr h1 h2
  simp [getattr_fallback, h1, h2]

theorem claim_c10_witness :
    ¬"can_enter_location" = "MIN_SCORE" ∧ ¬"can_enter_location" = "MAX_TURNS" ∧
    getattr_fallback "can_enter_location" = none :=
  ⟨by decide, by decide,
    claim_c10_getattr.2.2.2.2.2.2 "can_enter_location" (by decide) (by decide)⟩

/-! Helper lemmas characterizing drop and check_quest. -/

/-- check_quest with the item name absent from the current location item
list fails and changes nothing, whatever the catalog lookup returns. -/
theorem check_quest_not_present (g : AdventureGame) (n : String) (loc : Location)
    (hloc : g.get_location? = some loc) (hn : n ∉ loc.items) :
    g.check_quest n = some (false, g) := by
  unfold AdventureGame.check_quest
  rw [hloc]
  dsimp only
  cases hit : g.get_item n with
  | none => rfl
  | some it =>
    dsimp only
    rw [if_neg fun hc => hn hc.2]

/-- The exact state produced by a successful drop. -/
theorem drop_true_spec (g : AdventureGame) (n : String) (g1 : AdventureGame)
    (h : g.drop n = some (true, g1)) :
    ∃ it, g.get_item n = some it ∧ it ∈ g.state.inventory ∧
      g1 = { g with
        state := { g.state with inventory := g.state.inventory.erase it }
        locations := updateLoc g.locations g.current_location_id
          fun l => { l with items := l.items ++ [n] } } := by
  unfold AdventureGame.drop at h
  by_cases hv : n ∈ g.valid_items
  · rw [if_pos hv] at h
    cases hit : g.get_item n with
    | none => rw [hit] at h; simp at h
    | some it =>
      rw [hit] at h
      dsimp only at h
      by_cases hinv : it ∈ g.state.inventory
      · rw [if_pos hinv] at h
        cases hl : g.get_location? with
        | none => rw [hl] at h; simp at h
        | some loc =>
          rw [hl] at h
          dsimp only at h
          simp only [Option.some.injEq, Prod.mk.injEq, true_and] at h
          exact ⟨it, rfl, hinv, h.symm⟩
      · rw [if_neg hinv] at h; simp at h
  · rw [if_neg hv] at h; simp at h

/-- The exact state produced by a successful quest credit. -/
theorem check_quest_true_spec (g : AdventureGame) (n : String) (g2 : AdventureGame)
    (h : g.check_quest n = some (true, g2)) :
    ∃ loc it, g.get_location? = some loc ∧ g.get_item n = some it ∧
      it.target_position = loc.id_num ∧ n ∈ loc.items ∧
      g2 = { g with
        state := { g.state with
          returned := addName n g.state.returned
          score := g.state.score + it.target_points }
        locations := updateLoc g.locations g.current_location_id
          fun l => { l with items := l.items.erase n } } := by
  unfold AdventureGame.check_quest at h
  cases hl : g.get_location? with
  | none => rw [hl] at h; simp at h
  | some loc =>
    rw [hl] at h
    dsimp only at h
    cases hit : g.get_item n with
    | none => rw [hit] at h; simp at h
    | some it =>
      rw [hit] at h
      dsimp only at h
      by_cases hcond : it.target_position = loc.id_num ∧ n ∈ loc.items
      · rw [if_pos hcond] at h
        simp only [Option.some.injEq, Prod.mk.injEq, true_and] at h
        exact ⟨loc, it, rfl, rfl, hcond.1, hcond.2, h.symm⟩
      · rw [if_neg hcond] at h; simp at h

/-- Claim C4: with the current location and the catalog item resolved, a
quest check credits exactly when the item target position equals the
current location id and the name is present in that location item list at
the moment of the check; on credit the name joins the returned-set, the
score grows by exactly the item point value, the turn counter is
untouched, and the name is removed from the location item list. -/
theorem claim_c4_quest_credit : ∀ (g : AdventureGame) (n : String) (loc : Location) (it : Item),
    g.get_location? = some loc →
    g.get_item n = some it →
    ((∃ g2, g.check_quest n = some (true, g2)) ↔
      (it.target_position = loc.id_num ∧ n ∈ loc.items)) ∧
    ∀ g2, g.check_quest n = some (true, g2) →
      g2.state.returned = addName n g.state.returned ∧
      g2.state.score = g.state.score + it.target_points ∧
      g2.state.turn = g.state.turn ∧
      g2.get_location? = some { loc with items := loc.items.erase n } := by
  intro g n loc it hloc hit
  have hfalse : ¬(it.target_position = loc.id_num ∧ n ∈ loc.items) →
      g.check_quest n = some (false, g) := by
    intro hcond
    unfold AdventureGame.check_quest
    rw [hloc]
    dsimp only
    rw [hit]
    dsimp only
    rw [if_neg hcond]
  constructor
  · constructor
    · rintro ⟨g2, h2⟩
      by_contra hcond
      rw [hfalse hcond] at h2
      simp at h2
    · intro hcond
      refine ⟨{ g with
          state := { g.state with
            returned := addName n g.state.returned
            score := g.state.score + it.target_points }
          locations := updateLoc g.locations g.current_location_id
            fun l => { l with items := l.items.erase n } }, ?_⟩
      unfold AdventureGame.check_quest
      rw [hloc]
      dsimp only
      rw [hit]
      dsimp only
      rw [if_pos hcond]
  · intro g2 h2
    obtain ⟨loc9, it9, hloc9, hit9, -, -, rfl⟩ := check_quest_true_spec g n g2 h2
    have hl9 : loc9 = loc := Option.some.inj (hloc9.symm.trans hloc)
    have hi9 : it9 = it := Option.some.inj (hit9.symm.trans hit)
    subst hl9 hi9
    refine ⟨rfl, rfl, rfl, ?_⟩
    simp only [AdventureGame.get_location?] at hloc ⊢
    rw [lookup_updateLoc, hloc]
    rfl

/-- Sample catalog item whose target is location 2 and which is worth 70
points. -/
def usbItem : Item :=
  { name := "usb drive", description := "d", hint := "h", completion_text := "done",
    start_position := 1, target_position := 2, target_points := 70 }

/-- Sample location 2 holding the usb drive (a post-drop snapshot). -/
def locQ2 : Location :=
  { id_num := 2, name := "L2", brief_description := "b2", long_description := "B2",
    available_commands := [("go west", 1)], items := ["usb drive"], visited := false }

/-- Sample game standing at location 2 right after dropping the usb
drive. -/
def gQ : AdventureGame :=
  { locations := [(1, locW1), (2, locQ2)], items := [usbItem],
    valid_items := ["usb drive"],
    state := { inventory := [], score := 0, turn := 0, returned := [] },
    current_location_id := 2, ongoing := true }

theorem claim_c4_witness :
    gQ.get_location? = some locQ2 ∧ gQ.get_item "usb drive" = some usbItem ∧
    ((∃ g2, gQ.check_quest "usb drive" = some (true, g2)) ↔
      (usbItem.target_position = locQ2.id_num ∧ "usb drive" ∈ locQ2.items)) :=
  ⟨by decide, by decide,
    (claim_c4_quest_credit gQ "usb drive" locQ2 usbItem (by decide) (by decide)).1⟩

/-- Claim C5: a check_quest call for a name already in the returned-set
and no longer in the location item list fails with the state (score
included) unchanged; and a physical drop is credited at most once: after
a drop at a location not previously holding the name is credited, an
immediate second check fails and changes nothing, because the credit
removed the name from the location item list. -/
theorem claim_c5_credit_once :
    (∀ (g : AdventureGame) (n : String) (loc : Location),
      g.get_location? = some loc → n ∈ g.state.returned → n ∉ loc.items →
      g.check_quest n = some (false, g)) ∧
    (∀ (g : AdventureGame) (n : String) (loc : Location) (g1 g2 : AdventureGame),
      g.get_location? = some loc → n ∉ loc.items →
      g.drop n = some (true, g1) → g1.check_quest n = some (true, g2) →
      g2.check_quest n = some (false, g2)) := by
  constructor
  · intro g n loc hloc _ hn
    exact check_quest_not_present g n loc hloc hn
  · intro g n loc g1 g2 hloc hn hdrop hq
    obtain ⟨it, hit, hinv, rfl⟩ := drop_true_spec g n g1 hdrop
    obtain ⟨loc1, it1, hloc1, hit1, hcond1, hmem1, rfl⟩ := check_quest_true_spec _ n g2 hq
    have hitems : (loc.items ++ [n]).erase n = loc.items := by
      rw [List.erase_append_right _ hn]
      simp
    have hloc2 :
        AdventureGame.get_location?
          { locations := updateLoc (updateLoc g.locations g.current_location_id
              fun l => { l with items := l.items ++ [n] }) g.current_location_id
              fun l => { l with items := l.items.erase n }
            items := g.items
            valid_items := g.valid_items
            state := { inventory := g.state.inventory.erase it
                       score := g.state.score + it1.target_points
                       turn := g.state.turn
                       returned := addName n g.state.returned }
            current_location_id := g.current_location_id
            ongoing := g.ongoing } = some loc := by
      simp only [AdventureGame.get_location?] at hloc ⊢
      rw [lookup_updateLoc, lookup_updateLoc, hloc]
      simp [hitems]
    exact check_quest_not_present _ n loc hloc2 hn

/-- Sample game at location 1 with the usb drive already returned and no
longer present anywhere. -/
def gR : AdventureGame :=
  { locations := worldW, items := [usbItem], valid_items := ["usb drive"],
    state := { inventory := [], score := 70, turn := 0, returned := ["usb drive"] },
    current_location_id := 1, ongoing := true }

theorem claim_c5_witness :
    gR.get_location? = some locW1 ∧ "usb drive" ∈ gR.state.returned ∧
    "usb drive" ∉ locW1.items ∧
    gR.check_quest "usb drive" = some (false, gR) :=
  ⟨by decide, by decide, by decide,
    claim_c5_credit_once.1 gR "usb drive" locW1 (by decide) (by decide) (by decide)⟩

/-! Session outcome lemmas. -/

/-- Any result of the command loop is pending, aborted, or carries the
win or lose verdict computed from the final state. -/
theorem resolve_commands_kind : ∀ (cmds : List String) (g : AdventureGame)
    (log : List Event) (loc : Location) (k : EndKind) (gf : AdventureGame)
    (logf : List Event),
    resolve_commands g log loc cmds = some (k, gf, logf) →
    k = EndKind.pending ∨ k = EndKind.aborted ∨ k = eval_end gf := by
  intro cmds
  induction cmds with
  | nil =>
    intro g log loc k gf logf h
    simp only [resolve_commands, Option.some.injEq, Prod.mk.injEq] at h
    exact Or.inl h.1.symm
  | cons c cs ih =>
    intro g log loc k gf logf h
    simp only [resolve_commands] at h
    cases hl : loc.available_commands.lookup c with
    | some dest =>
      rw [hl] at h
      dsimp only at h
      by_cases hon : (apply_movement g dest).ongoing = true
      · rw [if_pos hon] at h
        cases hl2 : (apply_movement g dest).get_location? with
        | none => rw [hl2] at h; simp at h
        | some loc2 =>
          rw [hl2] at h
          exact ih _ _ _ _ _ _ h
      · rw [if_neg hon] at h
        simp only [Option.some.injEq, Prod.mk.injEq] at h
        obtain ⟨hk, hg, -⟩ := h
        subst hg
        exact Or.inr (Or.inr hk.symm)
    | none =>
      rw [hl] at h
      dsimp only at h
      cases hnm : handle_non_movement g c with
      | none => rw [hnm] at h; simp at h
      | some g1 =>
        rw [hnm] at h
        dsimp only at h
        by_cases hon : g1.ongoing = true
        · rw [if_pos hon] at h
          exact ih _ _ _ _ _ _ h
        · rw [if_neg hon] at h
          by_cases hq : c = "quit"
          · rw [if_pos hq] at h
            simp only [Option.some.injEq, Prod.mk.injEq] at h
            exact Or.inr (Or.inl h.1.symm)
          · rw [if_neg hq] at h
            simp only [Option.some.injEq, Prod.mk.injEq] at h
            obtain ⟨hk, hg, -⟩ := h
            subst hg
            exact Or.inr (Or.inr hk.symm)

/-- Claim C1: whenever the console session ends with a win or lose
verdict (that is, other than through quit or input exhaustion, so via
turn-exhaustion or submit early), the verdict is a win exactly when the
final score reaches DEFAULT_MIN_SCORE and every required item name is in
the returned-set. -/
theorem claim_c1_win_condition : ∀ (g : AdventureGame) (cmds : List String)
    (k : EndKind) (gf : AdventureGame) (logf : List Event),
    run_single_game g cmds = some (k, gf, logf) →
    k = EndKind.wonGame ∨ k = EndKind.lostGame →
    (k = EndKind.wonGame ↔
      DEFAULT_MIN_SCORE ≤ gf.state.score ∧ ∀ n ∈ REQUIRED_ITEMS, n ∈ gf.state.returned) := by
  intro g cmds k gf logf hrun hk
  have hkind : k = EndKind.pending ∨ k = EndKind.aborted ∨ k = eval_end gf := by
    unfold run_single_game at hrun
    by_cases hon : g.ongoing = true
    · rw [if_pos hon] at hrun
      cases hl : g.get_location? with
      | none => rw [hl] at hrun; simp at hrun
      | some loc =>
        rw [hl] at hrun
        exact resolve_commands_kind _ _ _ _ _ _ _ hrun
    · rw [if_neg hon] at hrun
      simp only [Option.some.injEq, Prod.mk.injEq] at hrun
      obtain ⟨hk2, hg, -⟩ := hrun
      subst hg
      exact Or.inr (Or.inr hk2.symm)
  have hke : k = eval_end gf := by
    rcases hkind with h | h | h
    · subst h; rcases hk with h2 | h2 <;> exact absurd h2 (by decide)
    · subst h; rcases hk with h2 | h2 <;> exact absurd h2 (by decide)
    · exact h
  subst hke
  unfold eval_end
  by_cases hw : did_player_win gf = true
  · rw [if_pos hw]
    exact iff_of_true rfl ((did_player_win_iff gf).mp hw)
  · rw [if_neg hw]
    exact iff_of_false (by decide) fun h2 => hw ((did_player_win_iff gf).mpr h2)

/-- The final state of the sample session that submits early at once. -/
def gfW1 : AdventureGame :=
  { locations := [(1, { locW1 with visited := true }), (2, locW2)], items := [],
    valid_items := [],
    state := { inventory := [], score := 0, turn := 0, returned := [] },
    current_location_id := 1, ongoing := false }

theorem claim_c1_witness :
    run_single_game gW ["submit early"]
      = some (EndKind.lostGame, gfW1, [⟨1, "b1", none⟩]) ∧
    (EndKind.lostGame = EndKind.wonGame ↔
      DEFAULT_MIN_SCORE ≤ gfW1.state.score ∧ ∀ n ∈ REQUIRED_ITEMS, n ∈ gfW1.state.returned) :=
  ⟨by decide,
    claim_c1_win_condition gW ["submit early"] EndKind.lostGame gfW1 [⟨1, "b1", none⟩]
      (by decide) (Or.inr rfl)⟩

/-! Event log shape lemmas for the movement contract. -/

/-- Setting the tail command of a non-empty log keeps it non-empty. -/
theorem set_last_cmd_ne_nil (e : Event) (es : List Event) (cmd : Option String) :
    set_last_cmd (e :: es) cmd ≠ [] := by
  cases es <;> simp [set_last_cmd]

/-- After set_last_cmd, the tail of a non-empty log carries the given
outgoing command. -/
theorem set_last_cmd_getLast : ∀ (e : Event) (es : List Event) (cmd : Option String),
    (set_last_cmd (e :: es) cmd).getLast?.map Event.next_command = some cmd := by
  intro e es
  induction es generalizing e with
  | nil => intro cmd; rfl
  | cons e2 es2 ih =>
    intro cmd
    show (e :: set_last_cmd (e2 :: es2) cmd).getLast?.map Event.next_command = some cmd
    obtain ⟨y, ys, hys⟩ := List.exists_cons_of_ne_nil (set_last_cmd_ne_nil e2 es2 cmd)
    rw [hys, List.getLast?_cons_cons, ← hys]
    exact ih e2 cmd

/-- The appended event is the tail of the log. -/
theorem add_event_getLast (log : List Event) (e : Event) (cmd : Option String) :
    (add_event log e cmd).getLast? = some e := by
  cases log with
  | nil => rfl
  | cons e0 es =>
    unfold add_event
    exact List.getLast?_concat _

/-- Dropping the appended tail recovers the command-updated old log. -/
theorem add_event_dropLast (log : List Event) (e : Event) (cmd : Option String)
    (h : log ≠ []) :
    (add_event log e cmd).dropLast = set_last_cmd log cmd := by
  cases log with
  | nil => exact absurd rfl h
  | cons e0 es =>
    unfold add_event
    exact List.dropLast_concat

/-- Claim C3 (amended, console loop): a movement command available at the
current location sets the current location id to the mapped destination
and advances the turn counter by exactly one; provided the session is
still ongoing afterwards, the loop continues after appending an event
whose location id is the id of the new (destination) location, while the
previously recorded tail event receives this movement command as the
command that led away from it. A movement that ends the session appends
nothing. -/
theorem claim_c3_console_movement : ∀ (g : AdventureGame) (log : List Event) (loc : Location)
    (c : String) (cs : List String) (dest : Int) (loc2 : Location),
    loc.available_commands.lookup c = some dest →
    (apply_movement g dest).ongoing = true →
    (apply_movement g dest).get_location? = some loc2 →
    (apply_movement g dest).current_location_id = dest ∧
    (apply_movement g dest).state.turn = g.state.turn + 1 ∧
    resolve_commands g log loc (c :: cs) =
      resolve_commands (set_visited (apply_movement g dest))
        (add_event log (mk_event loc2) (some c)) (mark_visited loc2) cs ∧
    (add_event log (mk_event loc2) (some c)).getLast? = some (mk_event loc2) ∧
    (mk_event loc2).id_num = loc2.id_num ∧
    (log ≠ [] →
      ((add_event log (mk_event loc2) (some c)).dropLast.getLast?).map Event.next_command
        = some (some c)) := by
  intro g log loc c cs dest loc2 hl hon hloc2
  refine ⟨rfl, rfl, ?_, add_event_getLast log (mk_event loc2) (some c), rfl, ?_⟩
  · simp only [resolve_commands]
    rw [hl]
    dsimp only
    rw [if_pos hon, hloc2]
  · intro h
    rw [add_event_dropLast log (mk_event loc2) (some c) h]
    cases log with
    | nil => exact absurd rfl h
    | cons e0 es => exact set_last_cmd_getLast e0 es (some c)

theorem claim_c3_witness :
    locW1.available_commands.lookup "go east" = some 2 ∧
    (apply_movement gW 2).ongoing = true ∧
    (apply_movement gW 2).get_location? = some locW2 ∧
    (apply_movement gW 2).current_location_id = 2 ∧
    (apply_movement gW 2).state.turn = gW.state.turn + 1 :=
  ⟨by decide, by decide, by decide,
    (claim_c3_console_movement gW [⟨1, "b1", none⟩] locW1 "go east" [] 2 locW2
      (by decide) (by decide) (by decide)).1,
    (claim_c3_console_movement gW [⟨1, "b1", none⟩] locW1 "go east" [] 2 locW2
      (by decide) (by decide) (by decide)).2.1⟩

/-- Claim C3 counterexample (pygame interface): on the sample world,
GameUI.do_move for the valid movement go east from location 1 to location
2 appends an event carrying the id of the departed location (1), not the
destination id (2), and then raises AttributeError while reading
self.game.max_turns, so the claim that the appended event records the new
location fails on GameUI.do_move. -/
theorem claim_c3_counterexample :
    ui_do_move gW [] "go east" =
      ([{ id_num := 1, description := "b1", next_command := none }], none) ∧
    locW1.available_commands.lookup "go east" = some 2 ∧
    ¬(ui_do_move gW [] "go east").1.map Event.id_num = [2] :=
  ⟨by decide, by decide, by decide⟩

/-! Turn-exhaustion lemmas over the movement-only runner. -/

/-- Each applied movement advances the turn counter by one. -/
theorem move_seq_turn : ∀ (cmds : List String) (g gf : AdventureGame),
    move_seq g cmds = some gf → gf.state.turn = g.state.turn + cmds.length := by
  intro cmds
  induction cmds with
  | nil =>
    intro g gf h
    simp only [move_seq, Option.some.injEq] at h
    subst h
    simp
  | cons c cs ih =>
    intro g gf h
    simp only [move_seq] at h
    by_cases hon : g.ongoing = true
    · rw [if_pos hon] at h
      cases hl : g.get_location? with
      | none => rw [hl] at h; simp at h
      | some loc =>
        rw [hl] at h
        dsimp only at h
        cases hc : loc.available_commands.lookup c with
        | none => rw [hc] at h; simp at h
        | some dest =>
          rw [hc] at h
          have := ih (apply_movement g dest) gf h
          simp only [apply_movement] at this
          rw [this]
          simp only [List.length_cons]
          push_cast
          ring
    · rw [if_neg hon] at h; simp at h

/-- A state still ongoing after a non-empty movement run has its turn
counter strictly below the turn bound. -/
theorem move_seq_ongoing_lt : ∀ (cmds : List String) (g gf : AdventureGame),
    move_seq g cmds = some gf → cmds ≠ [] → gf.ongoing = true →
    gf.state.turn < DEFAULT_MAX_TURNS := by
  intro cmds
  induction cmds with
  | nil => intro g gf _ hne _; exact absurd rfl hne
  | cons c cs ih =>
    intro g gf h _ hgf
    simp only [move_seq] at h
    by_cases hon : g.ongoing = true
    · rw [if_pos hon] at h
      cases hl : g.get_location? with
      | none => rw [hl] at h; simp at h
      | some loc =>
        rw [hl] at h
        dsimp only at h
        cases hc : loc.available_commands.lookup c with
        | none => rw [hc] at h; simp at h
        | some dest =>
          rw [hc] at h
          cases cs with
          | nil =>
            simp only [move_seq, Option.some.injEq] at h
            subst h
            simp only [apply_movement] at hgf ⊢
            by_cases hb : DEFAULT_MAX_TURNS ≤ g.state.turn + 1
            · rw [if_pos hb] at hgf; cases hgf
            · omega
          | cons c2 cs2 =>
            exact ih (apply_movement g dest) gf h (by simp) hgf
    · rw [if_neg hon] at h; simp at h

/-- Splitting a movement run at any point. -/
theorem move_seq_append : ∀ (p q : List String) (g : AdventureGame),
    move_seq g (p ++ q) = (move_seq g p).bind fun g1 => move_seq g1 q := by
  intro p
  induction p with
  | nil => intro q g; simp [move_seq]
  | cons c cs ih =>
    intro q g
    simp only [List.cons_append, move_seq]
    by_cases hon : g.ongoing = true
    · rw [if_pos hon, if_pos hon]
      cases hl : g.get_location? with
      | none => rfl
      | some loc =>
        dsimp only
        cases hc : loc.available_commands.lookup c with
        | none => rfl
        | some dest => exact ih q (apply_movement g dest)
    · rw [if_neg hon, if_neg hon]
      rfl

/-- Claim C7: from a fresh session (turn counter 0, ongoing), a run of
exactly DEFAULT_MAX_TURNS valid movement commands leaves the session no
longer ongoing immediately after the final movement, while after every
strictly shorter prefix of the run the session is still ongoing. -/
theorem claim_c7_turn_exhaustion : ∀ (g : AdventureGame) (cmds : List String)
    (gf : AdventureGame),
    g.state.turn = 0 → g.ongoing = true → cmds.length = 67 →
    move_seq g cmds = some gf →
    gf.ongoing = false ∧
    ∀ (p q : List String) (gp : AdventureGame), cmds = p ++ q → q ≠ [] →
      move_seq g p = some gp → gp.ongoing = true := by
  intro g cmds gf h0 hon hlen hrun
  constructor
  · cases hgf : gf.ongoing with
    | false => rfl
    | true =>
      exfalso
      have hne : cmds ≠ [] := by
        intro hnil
        rw [hnil] at hlen
        simp at hlen
      have hlt := move_seq_ongoing_lt cmds g gf hrun hne hgf
      have ht := move_seq_turn cmds g gf hrun
      rw [h0, hlen] at ht
      rw [ht] at hlt
      simp [DEFAULT_MAX_TURNS] at hlt
  · intro p q gp hpq hq hp
    subst hpq
    rw [move_seq_append, hp] at hrun
    rw [Option.some_bind] at hrun
    cases q with
    | nil => exact absurd rfl hq
    | cons c2 cs2 =>
      simp only [move_seq] at hrun
      by_cases h : gp.ongoing = true
      · exact h
      · rw [if_neg h] at hrun
        cases hrun

/-- The 67-command ping-pong movement script between the two sample
locations. -/
def cmds67 : List String :=
  (List.replicate 33 ["go east", "go west"]).flatten ++ ["go east"]

/-- The sample game state after the 67 ping-pong movements. -/
def gfW7 : AdventureGame :=
  { locations := worldW, items := [], valid_items := [],
    state := { inventory := [], score := 0, turn := 67, returned := [] },
    current_location_id := 2, ongoing := false }

theorem claim_c7_witness :
    gW.state.turn = 0 ∧ gW.ongoing = true ∧ cmds67.length = 67 ∧
    move_seq gW cmds67 = some gfW7 ∧ gfW7.ongoing = false :=
  ⟨rfl, rfl, by decide, by decide,
    (claim_c7_turn_exhaustion gW cmds67 gfW7 rfl rfl (by decide) (by decide)).1⟩

/-! Monotonicity machinery. -/

/-- Relation tracked by the monotonicity argument: score and turn never
decrease, the returned-set never loses a member, and the item catalog is
untouched. -/
def StateLe (g g2 : AdventureGame) : Prop :=
  g.state.score ≤ g2.state.score ∧ g.state.turn ≤ g2.state.turn ∧
    (∀ n ∈ g.state.returned, n ∈ g2.state.returned) ∧ g2.items = g.items

theorem state_le_refl (g : AdventureGame) : StateLe g g :=
  ⟨le_refl _, le_refl _, fun _ h => h, rfl⟩

theorem state_le_trans {a b c : AdventureGame} (h1 : StateLe a b) (h2 : StateLe b c) :
    StateLe a c :=
  ⟨h1.1.trans h2.1, h1.2.1.trans h2.2.1, fun n hn => h2.2.2.1 n (h1.2.2.1 n hn),
    h2.2.2.2.trans h1.2.2.2⟩

/-- pick_up only moves an item between the location list and the
inventory. -/
theorem pick_up_state_le (g : AdventureGame) (n : String) (p : Bool × AdventureGame)
    (h : g.pick_up n = some p) : StateLe g p.2 := by
  unfold AdventureGame.pick_up at h
  by_cases hv : n ∈ g.valid_items
  · rw [if_pos hv] at h
    cases hit : g.get_item n with
    | none =>
      rw [hit] at h
      obtain rfl := Option.some.inj h
      exact state_le_refl g
    | some it =>
      rw [hit] at h
      dsimp only at h
      cases hl : g.get_location? with
      | none => rw [hl] at h; cases h
      | some loc =>
        rw [hl] at h
        dsimp only at h
        by_cases hm : n ∈ loc.items
        · rw [if_pos hm] at h
          obtain rfl := Option.some.inj h
          exact ⟨le_refl _, le_refl _, fun _ hx => hx, rfl⟩
        · rw [if_neg hm] at h
          obtain rfl := Option.some.inj h
          exact state_le_refl g
  · rw [if_neg hv] at h
    obtain rfl := Option.some.inj h
    exact state_le_refl g

/-- drop only moves an item between the inventory and the location
list. -/
theorem drop_state_le (g : AdventureGame) (n : String) (p : Bool × AdventureGame)
    (h : g.drop n = some p) : StateLe g p.2 := by
  unfold AdventureGame.drop at h
  by_cases hv : n ∈ g.valid_items
  · rw [if_pos hv] at h
    cases hit : g.get_item n with
    | none =>
      rw [hit] at h
      obtain rfl := Option.some.inj h
      exact state_le_refl g
    | some it =>
      rw [hit] at h
      dsimp only at h
      by_cases hm : it ∈ g.state.inventory
      · rw [if_pos hm] at h
        cases hl : g.get_location? with
        | none => rw [hl] at h; cases h
        | some loc =>
          rw [hl] at h
          dsimp only at h
          obtain rfl := Option.some.inj h
          exact ⟨le_refl _, le_refl _, fun _ hx => hx, rfl⟩
      · rw [if_neg hm] at h
        obtain rfl := Option.some.inj h
        exact state_le_refl g
  · rw [if_neg hv] at h
    obtain rfl := Option.some.inj h
    exact state_le_refl g

/-- check_quest can only raise the score (under a catalog of non-negative
point values) and only grow the returned-set. -/
theorem check_quest_state_le (g : AdventureGame) (n : String) (p : Bool × AdventureGame)
    (hpts : ∀ it ∈ g.items, 0 ≤ it.target_points)
    (h : g.check_quest n = some p) : StateLe g p.2 := by
  unfold AdventureGame.check_quest at h
  cases hl : g.get_location? with
  | none => rw [hl] at h; cases h
  | some loc =>
    rw [hl] at h
    dsimp only at h
    cases hit : g.get_item n with
    | none =>
      rw [hit] at h
      obtain rfl := Option.some.inj h
      exact state_le_refl g
    | some it =>
      rw [hit] at h
      dsimp only at h
      by_cases hc : it.target_position = loc.id_num ∧ n ∈ loc.items
      · rw [if_pos hc] at h
        obtain rfl := Option.some.inj h
        refine ⟨?_, le_refl _, ?_, rfl⟩
        · have hit2 : g.items.find? (fun x => x.name == n) = some it := hit
          have hm : it ∈ g.items := List.mem_of_find?_eq_some hit2
          have hp := hpts it hm
          show g.state.score ≤ g.state.score + it.target_points
          omega
        · intro m hm
          show m ∈ addName n g.state.returned
          unfold addName
          by_cases hmem : n ∈ g.state.returned
          · rw [if_pos hmem]; exact hm
          · rw [if_neg hmem]; exact List.mem_append_left _ hm
      · rw [if_neg hc] at h
        obtain rfl := Option.some.inj h
        exact state_le_refl g

/-- inspect is read-only. -/
theorem inspect_eq (g : AdventureGame) (n : String) (g1 : AdventureGame)
    (h : g.inspect n = some g1) : g1 = g := by
  unfold AdventureGame.inspect at h
  by_cases hv : n ∈ g.valid_items
  · rw [if_pos hv] at h
    cases hit : g.get_item n with
    | none => rw [hit] at h; exact (Option.some.inj h).symm
    | some it =>
      rw [hit] at h
      dsimp only at h
      by_cases hm : it ∈ g.state.inventory
      · rw [if_pos hm] at h
        cases hl : g.locations.lookup it.target_position with
        | none => rw [hl] at h; cases h
        | some loc => rw [hl] at h; exact (Option.some.inj h).symm
      · rw [if_neg hm] at h; exact (Option.some.inj h).symm
  · rw [if_neg hv] at h; exact (Option.some.inj h).symm

/-- The item-command dispatcher is monotone. -/
theorem handle_item_command_state_le (g : AdventureGame) (c : String) (g1 : AdventureGame)
    (hpts : ∀ it ∈ g.items, 0 ≤ it.target_points)
    (h : handle_item_command g c = some g1) : StateLe g g1 := by
  unfold handle_item_command at h
  cases hp : parse_item_command c with
  | none =>
    rw [hp] at h
    obtain rfl := Option.some.inj h
    exact state_le_refl g
  | some vp =>
    obtain ⟨verb, n⟩ := vp
    rw [hp] at h
    dsimp only at h
    by_cases ht : verb = "take"
    · rw [if_pos ht] at h
      cases hpk : g.pick_up n with
      | none => rw [hpk] at h; cases h
      | some p =>
        rw [hpk] at h
        simp only [Option.map_some'] at h
        obtain rfl := Option.some.inj h
        exact pick_up_state_le g n p hpk
    · by_cases hd : verb = "drop"
      · rw [if_neg ht, if_pos hd] at h
        cases hdr : g.drop n with
        | none => rw [hdr] at h; cases h
        | some p =>
          obtain ⟨b, gd⟩ := p
          rw [hdr] at h
          cases b with
          | false =>
            dsimp only at h
            obtain rfl := Option.some.inj h
            exact drop_state_le g n (false, gd) hdr
          | true =>
            dsimp only at h
            have hle1 := drop_state_le g n (true, gd) hdr
            cases hq : gd.check_quest n with
            | none => rw [hq] at h; cases h
            | some q =>
              rw [hq] at h
              simp only [Option.map_some'] at h
              obtain rfl := Option.some.inj h
              have hpts2 : ∀ it ∈ gd.items, 0 ≤ it.target_points := by
                have he : gd.items = g.items := hle1.2.2.2
                rw [he]
                exact hpts
              exact state_le_trans hle1 (check_quest_state_le gd n q hpts2 hq)
      · rw [if_neg ht, if_neg hd] at h
        obtain rfl := inspect_eq g n g1 h
        exact state_le_refl _

/-- The non-movement dispatcher is monotone. -/
theorem handle_non_movement_state_le (g : AdventureGame) (c : String) (g1 : AdventureGame)
    (hpts : ∀ it ∈ g.items, 0 ≤ it.target_points)
    (h : handle_non_movement g c = some g1) : StateLe g g1 := by
  unfold handle_non_movement at h
  by_cases h1 : c = "log"
  · rw [if_pos h1] at h; obtain rfl := Option.some.inj h; exact state_le_refl g
  rw [if_neg h1] at h
  by_cases h2 : c = "look"
  · rw [if_pos h2] at h; obtain rfl := Option.some.inj h; exact state_le_refl g
  rw [if_neg h2] at h
  by_cases h3 : c = "inventory"
  · rw [if_pos h3] at h; obtain rfl := Option.some.inj h; exact state_le_refl g
  rw [if_neg h3] at h
  by_cases h4 : c = "score"
  · rw [if_pos h4] at h; obtain rfl := Option.some.inj h; exact state_le_refl g
  rw [if_neg h4] at h
  by_cases h5 : c = "quit"
  · rw [if_pos h5] at h
    obtain rfl := Option.some.inj h
    exact ⟨le_refl _, le_refl _, fun _ hx => hx, rfl⟩
  rw [if_neg h5] at h
  by_cases h6 : c = "submit early"
  · rw [if_pos h6] at h
    obtain rfl := Option.some.inj h
    exact ⟨le_refl _, le_refl _, fun _ hx => hx, rfl⟩
  rw [if_neg h6] at h
  exact handle_item_command_state_le g c g1 hpts h

/-- A movement only advances the turn counter. -/
theorem apply_movement_state_le (g : AdventureGame) (dest : Int) :
    StateLe g (apply_movement g dest) := by
  refine ⟨le_refl _, ?_, fun _ hx => hx, rfl⟩
  show g.state.turn ≤ g.state.turn + 1
  omega

/-- Marking the current location visited leaves the player state alone. -/
theorem set_visited_state_le (g : AdventureGame) : StateLe g (set_visited g) :=
  ⟨le_refl _, le_refl _, fun _ hx => hx, rfl⟩

/-- The command loop is monotone. -/
theorem resolve_commands_state_le : ∀ (cmds : List String) (g : AdventureGame)
    (log : List Event) (loc : Location) (k : EndKind) (gf : AdventureGame)
    (logf : List Event),
    (∀ it ∈ g.items, 0 ≤ it.target_points) →
    resolve_commands g log loc cmds = some (k, gf, logf) →
    StateLe g gf := by
  intro cmds
  induction cmds with
  | nil =>
    intro g log loc k gf logf _ h
    simp only [resolve_commands, Option.some.injEq, Prod.mk.injEq] at h
    obtain ⟨-, hg, -⟩ := h
    subst hg
    exact state_le_refl g
  | cons c cs ih =>
    intro g log loc k gf logf hpts h
    simp only [resolve_commands] at h
    cases hl : loc.available_commands.lookup c with
    | some dest =>
      rw [hl] at h
      dsimp only at h
      have hle1 := apply_movement_state_le g dest
      by_cases hon : (apply_movement g dest).ongoing = true
      · rw [if_pos hon] at h
        cases hl2 : (apply_movement g dest).get_location? with
        | none => rw [hl2] at h; cases h
        | some loc2 =>
          rw [hl2] at h
          have hle2 := set_visited_state_le (apply_movement g dest)
          have hpts2 : ∀ it ∈ (set_visited (apply_movement g dest)).items,
              0 ≤ it.target_points := hpts
          exact state_le_trans (state_le_trans hle1 hle2) (ih _ _ _ _ _ _ hpts2 h)
      · rw [if_neg hon] at h
        simp only [Option.some.injEq, Prod.mk.injEq] at h
        obtain ⟨-, hg, -⟩ := h
        subst hg
        exact hle1
    | none =>
      rw [hl] at h
      dsimp only at h
      cases hnm : handle_non_movement g c with
      | none => rw [hnm] at h; cases h
      | some g1 =>
        rw [hnm] at h
        dsimp only at h
        have hle1 := handle_non_movement_state_le g c g1 hpts hnm
        by_cases hon : g1.ongoing = true
        · rw [if_pos hon] at h
          have hpts2 : ∀ it ∈ g1.items, 0 ≤ it.target_points := by
            have he : g1.items = g.items := hle1.2.2.2
            rw [he]
            exact hpts
          exact state_le_trans hle1 (ih _ _ _ _ _ _ hpts2 h)
        · rw [if_neg hon] at h
          by_cases hq : c = "quit"
          · rw [if_pos hq] at h
            simp only [Option.some.injEq, Prod.mk.injEq] at h
            obtain ⟨-, hg, -⟩ := h
            subst hg
            exact hle1
          · rw [if_neg hq] at h
            simp only [Option.some.injEq, Prod.mk.injEq] at h
            obtain ⟨-, hg, -⟩ := h
            subst hg
            exact hle1

/-- Claim C8: over any command sequence resolved within one console
session (on a catalog of non-negative point values, as awarded points),
the score never decreases, the turn counter never decreases, and the
returned-set never loses a member. -/
theorem claim_c8_monotonic : ∀ (g : AdventureGame) (cmds : List String) (k : EndKind)
    (gf : AdventureGame) (logf : List Event),
    (∀ it ∈ g.items, 0 ≤ it.target_points) →
    run_single_game g cmds = some (k, gf, logf) →
    g.state.score ≤ gf.state.score ∧ g.state.turn ≤ gf.state.turn ∧
      ∀ n ∈ g.state.returned, n ∈ gf.state.returned := by
  intro g cmds k gf logf hpts hrun
  unfold run_single_game at hrun
  by_cases hon : g.ongoing = true
  · rw [if_pos hon] at hrun
    cases hl : g.get_location? with
    | none => rw [hl] at hrun; cases hrun
    | some loc =>
      rw [hl] at hrun
      have hpts2 : ∀ it ∈ (set_visited g).items, 0 ≤ it.target_points := hpts
      have hle := state_le_trans (set_visited_state_le g)
        (resolve_commands_state_le _ _ _ _ _ _ _ hpts2 hrun)
      exact ⟨hle.1, hle.2.1, hle.2.2.1⟩
  · rw [if_neg hon] at hrun
    simp only [Option.some.injEq, Prod.mk.injEq] at hrun
    obtain ⟨-, hg, -⟩ := hrun
    subst hg
    exact ⟨le_refl _, le_refl _, fun _ hx => hx⟩

/-- The sample game with its starting location marked visited, as it
stands after one read-only command. -/
def gWv : AdventureGame :=
  { locations := [(1, { locW1 with visited := true }), (2, locW2)], items := [],
    valid_items := [],
    state := { inventory := [], score := 0, turn := 0, returned := [] },
    current_location_id := 1, ongoing := true }

theorem claim_c8_witness :
    (∀ it ∈ gW.items, (0 : Int) ≤ it.target_points) ∧
    run_single_game gW ["inventory"] = some (EndKind.pending, gWv, [⟨1, "b1", none⟩]) ∧
    (gW.state.score ≤ gWv.state.score ∧ gW.state.turn ≤ gWv.state.turn ∧
      ∀ n ∈ gW.state.returned, n ∈ gWv.state.returned) :=
  ⟨by decide, by decide,
    claim_c8_monotonic gW ["inventory"] EndKind.pending gWv [⟨1, "b1", none⟩]
      (by decide) (by decide)⟩
